import Mathlib

/-!
Verification of the chat-relay server (shared message codec, authentication,
broadcast fan-out, persistence queries, credential checking and metrics).

The definitions below are shallow embeddings of the Rust sources:
* `shared/src/message.rs` (homework_10/shared, used identically by the
  homework_11 server): the `Message` data model, the bincode wire codec and
  the framed send/receive functions;
* `homework_11/server/src/startup.rs`: connection handling, authentication
  loop and the broadcaster;
* `homework_10/server/src/startup.rs`: the earlier authentication loop
  (`authenticate_user`), kept for contrast on the registration response;
* `homework_10/server/src/db.rs`: the `get_messages` SQL query, embedded as
  list operations with SQL `LIKE`, `ORDER BY ... DESC` and `LIMIT` semantics;
* `homework_9/server/src/user.rs`: password verification over base64-encoded
  credentials (the PBKDF2 primitive is a parameter; the claims under scrutiny
  do not depend on its internals);
* `homework_11/server/src/metrics.rs` together with the accept loop: the
  `active_connections` gauge, embedded as an event-trace semantics.

Machine integers are modelled as `Nat`/`Int` with explicit bounds; bytes are
`Nat` values `< 256`; fallible operations return `Option` or `Except`.
-/

/-! ## Data model (shared/src/message.rs) -/

/-- `AuthMessage` from shared/src/message.rs. -/
inductive AuthMessage
  | LoginSuccessful
  | UserRegistered
  deriving DecidableEq, Repr

/-- `AuthError` from shared/src/message.rs. -/
inductive AuthError
  | IncorrectPassword
  deriving DecidableEq, Repr

/-- `AuthPayload` from shared/src/message.rs: success flag plus optional
success message and optional error. -/
structure AuthPayload where
  is_ok : Bool
  message : Option AuthMessage
  err : Option AuthError
  deriving DecidableEq, Repr

/-- `AuthUser` from shared/src/message.rs: plaintext login credentials. -/
structure AuthUser where
  name : String
  password : String
  deriving DecidableEq, Repr

/-- `MessagePayload` from shared/src/message.rs.  `Vec<u8>` blobs are lists
of byte values. -/
inductive MessagePayload
  | Text (s : String)
  | Image (bytes : List Nat)
  | File (name : String) (bytes : List Nat)
  | ServerInfo (s : String)
  | Login (user : AuthUser)
  | LoginResponse (payload : AuthPayload)
  deriving DecidableEq, Repr

/-- `Message` from shared/src/message.rs: optional sender, i64 Unix
timestamp, payload. -/
structure Message where
  sender : Option String
  timestamp : Int
  data : MessagePayload
  deriving DecidableEq, Repr

/-- `Message::new`.  `Utc::now().timestamp()` is passed explicitly as `now`. -/
def Message.new (now : Int) (data : MessagePayload) : Message :=
  { sender := none, timestamp := now, data := data }

/-- `Message::new_server_msg`: a `ServerInfo` message with no sender. -/
def Message.new_server_msg (now : Int) (text : String) : Message :=
  { data := MessagePayload.ServerInfo text, sender := none, timestamp := now }

/-- `Message::set_from_user`: overwrite the sender field. -/
def Message.set_from_user (m : Message) (sender : String) : Message :=
  { m with sender := some sender }

/-- `AuthPayload::new_login`. -/
def AuthPayload.new_login : AuthPayload :=
  { is_ok := true, message := some AuthMessage.LoginSuccessful, err := none }

/-- `AuthPayload::new_register`. -/
def AuthPayload.new_register : AuthPayload :=
  { is_ok := true, message := some AuthMessage.UserRegistered, err := none }

/-- `AuthPayload::new_error`. -/
def AuthPayload.new_error : AuthPayload :=
  { is_ok := false, message := none, err := some AuthError.IncorrectPassword }

/-- The welcome message built by `Message::send_active_users_msg`:
`new_server_msg` of `format!("Active users: {}", active_users)`. -/
def Message.active_users_msg (now : Int) (active_users : Nat) : Message :=
  Message.new_server_msg now ("Active users: " ++ toString active_users)

/-- The tuple a session handler enqueues for one received frame: the relay
step of `handle_connection`'s receive loop stamps the authenticated
username over whatever sender the client supplied, then enqueues the
message tagged with the session's address. -/
def relayStep (address : Nat) (username : String) (m : Message) :
    Nat × Message :=
  (address, m.set_from_user username)

/-! ## Wire codec (shared/src/message.rs, `bincode::serialize` /
`bincode::deserialize`)

`bincode` 1.x with its default (legacy) options: fixed-width little-endian
integers, `u32` enum discriminants, `u64` lengths for strings and byte
vectors, a one-byte tag for `Option` and `bool`, UTF-8 bytes for strings.
Bytes are `Nat` values; encoders only emit values `< 256`. -/

namespace Bincode

/-- `w` little-endian bytes of `n`. -/
def leBytes : Nat → Nat → List Nat
  | 0, _ => []
  | w + 1, n => n % 256 :: leBytes w (n / 256)

/-- Read `w` little-endian bytes into a number. -/
def readLE : Nat → List Nat → Option (Nat × List Nat)
  | 0, s => some (0, s)
  | _ + 1, [] => none
  | w + 1, b :: s => (readLE w s).map (fun p => (b + 256 * p.1, p.2))

/-- Read exactly `n` raw bytes. -/
def readChunk (n : Nat) (s : List Nat) : Option (List Nat × List Nat) :=
  if n ≤ s.length then some (s.take n, s.drop n) else none

/-- UTF-8 byte sequence of one unicode scalar value given as a number. -/
def utf8EncodeNat (n : Nat) : List Nat :=
  if n < 0x80 then [n]
  else if n < 0x800 then [0xC0 + n / 64, 0x80 + n % 64]
  else if n < 0x10000 then [0xE0 + n / 4096, 0x80 + n / 64 % 64, 0x80 + n % 64]
  else [0xF0 + n / 0x40000, 0x80 + n / 4096 % 64, 0x80 + n / 64 % 64,
    0x80 + n % 64]

/-- UTF-8 encoding of one unicode scalar value (as Rust strings store). -/
def utf8EncodeChar (c : Char) : List Nat :=
  utf8EncodeNat c.toNat

/-- Bytes of a character sequence. -/
def utf8Encode (s : List Char) : List Nat :=
  (s.map utf8EncodeChar).flatten

/-- A UTF-8 continuation byte. -/
def isCont (b : Nat) : Bool :=
  decide (0x80 ≤ b ∧ b < 0xC0)

/-- Strict UTF-8 decoding of one scalar value: rejects truncated input,
stray continuation bytes, overlong forms, surrogates and values above
`0x10FFFF`, as Rust's string validation does. -/
def utf8DecodeChar : List Nat → Option (Char × List Nat)
  | [] => none
  | b0 :: r =>
    if b0 < 0x80 then some (Char.ofNat b0, r)
    else if b0 < 0xE0 then
      match r with
      | b1 :: r1 =>
        if 0xC2 ≤ b0 ∧ isCont b1 then
          some (Char.ofNat ((b0 - 0xC0) * 64 + (b1 - 0x80)), r1)
        else none
      | _ => none
    else if b0 < 0xF0 then
      match r with
      | b1 :: b2 :: r1 =>
        let n := (b0 - 0xE0) * 4096 + (b1 - 0x80) * 64 + (b2 - 0x80)
        if isCont b1 ∧ isCont b2 ∧ 0x800 ≤ n ∧ (n < 0xD800 ∨ 0xDFFF < n) then
          some (Char.ofNat n, r1)
        else none
      | _ => none
    else
      match r with
      | b1 :: b2 :: b3 :: r1 =>
        let n := (b0 - 0xF0) * 0x40000 + (b1 - 0x80) * 4096 +
          (b2 - 0x80) * 64 + (b3 - 0x80)
        if b0 < 0xF5 ∧ isCont b1 ∧ isCont b2 ∧ isCont b3 ∧ 0x10000 ≤ n ∧
            n < 0x110000 then
          some (Char.ofNat n, r1)
        else none
      | _ => none

/-- Fuel-indexed UTF-8 decoding of a whole buffer. -/
def utf8DecodeAux (fuel : Nat) (s : List Nat) : Option (List Char) :=
  match fuel, s with
  | _, [] => some []
  | 0, _ => none
  | fuel + 1, s =>
    match utf8DecodeChar s with
    | none => none
    | some (c, r) => (utf8DecodeAux fuel r).map (fun cs => c :: cs)

/-- UTF-8 decoding of a whole buffer (each step consumes at least one byte,
so the buffer length is enough fuel). -/
def utf8Decode (s : List Nat) : Option (List Char) :=
  utf8DecodeAux s.length s

/-- bincode string encoding: `u64` byte length, then UTF-8 bytes. -/
def encodeString (s : String) : List Nat :=
  let bs := utf8Encode s.data
  leBytes 8 bs.length ++ bs

def readString (s : List Nat) : Option (String × List Nat) := do
  let (len, r) ← readLE 8 s
  let (bs, r1) ← readChunk len r
  let cs ← utf8Decode bs
  pure (String.mk cs, r1)

/-- bincode `Vec<u8>` encoding: `u64` length, then the raw bytes. -/
def encodeBytes (b : List Nat) : List Nat :=
  leBytes 8 b.length ++ b

def readBytes (s : List Nat) : Option (List Nat × List Nat) := do
  let (len, r) ← readLE 8 s
  readChunk len r

/-- bincode `bool` encoding: one byte, `0` or `1`. -/
def encodeBool (b : Bool) : List Nat :=
  [if b then 1 else 0]

def readBool : List Nat → Option (Bool × List Nat)
  | 0 :: r => some (false, r)
  | 1 :: r => some (true, r)
  | _ => none

/-- bincode `Option` encoding: one-byte tag, then the value if present. -/
def encodeOption {α : Type} (enc : α → List Nat) : Option α → List Nat
  | none => [0]
  | some a => 1 :: enc a

def readOption {α : Type} (rd : List Nat → Option (α × List Nat)) :
    List Nat → Option (Option α × List Nat)
  | 0 :: r => some (none, r)
  | 1 :: r => (rd r).map (fun p => (some p.1, p.2))
  | _ => none

/-- bincode `i64`: eight little-endian bytes of the two's complement. -/
def encodeI64 (t : Int) : List Nat :=
  leBytes 8 (t % (2 ^ 64 : Int)).toNat

def readI64 (s : List Nat) : Option (Int × List Nat) :=
  (readLE 8 s).map
    (fun p => (if p.1 < 2 ^ 63 then (p.1 : Int) else (p.1 : Int) - 2 ^ 64, p.2))

/-- `AuthMessage` enum: `u32` discriminant in declaration order. -/
def encodeAuthMessage : AuthMessage → List Nat
  | AuthMessage.LoginSuccessful => leBytes 4 0
  | AuthMessage.UserRegistered => leBytes 4 1

def readAuthMessage (s : List Nat) : Option (AuthMessage × List Nat) := do
  let (t, r) ← readLE 4 s
  match t with
  | 0 => some (AuthMessage.LoginSuccessful, r)
  | 1 => some (AuthMessage.UserRegistered, r)
  | _ => none

/-- `AuthError` enum: `u32` discriminant. -/
def encodeAuthError : AuthError → List Nat
  | AuthError.IncorrectPassword => leBytes 4 0

def readAuthError (s : List Nat) : Option (AuthError × List Nat) := do
  let (t, r) ← readLE 4 s
  match t with
  | 0 => some (AuthError.IncorrectPassword, r)
  | _ => none

/-- `AuthPayload` struct: fields in declaration order. -/
def encodeAuthPayload (p : AuthPayload) : List Nat :=
  encodeBool p.is_ok ++ encodeOption encodeAuthMessage p.message ++
    encodeOption encodeAuthError p.err

def readAuthPayload (s : List Nat) : Option (AuthPayload × List Nat) := do
  let (ok, r) ← readBool s
  let (msg, r1) ← readOption readAuthMessage r
  let (e, r2) ← readOption readAuthError r1
  pure (⟨ok, msg, e⟩, r2)

/-- `AuthUser` struct: two strings. -/
def encodeAuthUser (u : AuthUser) : List Nat :=
  encodeString u.name ++ encodeString u.password

def readAuthUser (s : List Nat) : Option (AuthUser × List Nat) := do
  let (n, r) ← readString s
  let (p, r1) ← readString r
  pure (⟨n, p⟩, r1)

/-- `MessagePayload` enum: `u32` discriminant in declaration order, then the
variant's fields. -/
def encodePayload : MessagePayload → List Nat
  | MessagePayload.Text s => leBytes 4 0 ++ encodeString s
  | MessagePayload.Image b => leBytes 4 1 ++ encodeBytes b
  | MessagePayload.File n b => leBytes 4 2 ++ encodeString n ++ encodeBytes b
  | MessagePayload.ServerInfo s => leBytes 4 3 ++ encodeString s
  | MessagePayload.Login u => leBytes 4 4 ++ encodeAuthUser u
  | MessagePayload.LoginResponse p => leBytes 4 5 ++ encodeAuthPayload p

def readPayload (s : List Nat) : Option (MessagePayload × List Nat) := do
  let (t, r) ← readLE 4 s
  match t with
  | 0 => (readString r).map (fun p => (MessagePayload.Text p.1, p.2))
  | 1 => (readBytes r).map (fun p => (MessagePayload.Image p.1, p.2))
  | 2 => do
    let (n, r1) ← readString r
    let (b, r2) ← readBytes r1
    pure (MessagePayload.File n b, r2)
  | 3 => (readString r).map (fun p => (MessagePayload.ServerInfo p.1, p.2))
  | 4 => (readAuthUser r).map (fun p => (MessagePayload.Login p.1, p.2))
  | 5 => (readAuthPayload r).map (fun p =>
      (MessagePayload.LoginResponse p.1, p.2))
  | _ => none

/-- `Message` struct: `sender`, `timestamp`, `data` in order. -/
def readMessage (s : List Nat) : Option (Message × List Nat) := do
  let (sender, r) ← readOption readString s
  let (ts, r1) ← readI64 r
  let (d, r2) ← readPayload r1
  pure (⟨sender, ts, d⟩, r2)

end Bincode

/-- `Message::serialize`: `bincode::serialize` of the three fields. -/
def Message.serialize (m : Message) : List Nat :=
  Bincode.encodeOption Bincode.encodeString m.sender ++
    Bincode.encodeI64 m.timestamp ++ Bincode.encodePayload m.data

/-- `Message::deserialize`: `bincode::deserialize` parses one `Message` from
the front of the buffer (bincode's slice reader ignores trailing bytes). -/
def Message.deserialize (data : List Nat) : Option Message :=
  (Bincode.readMessage data).map (fun p => p.1)

/-- A string a Rust `String` can hold: its UTF-8 byte length fits `usize`. -/
def strWf (s : String) : Bool :=
  decide ((Bincode.utf8Encode s.data).length < 2 ^ 64)

/-- A byte vector a Rust `Vec<u8>` can hold. -/
def bytesWf (b : List Nat) : Bool :=
  decide (b.length < 2 ^ 64) && b.all (fun x => decide (x < 256))

/-- Payload whose fields are representable Rust values. -/
def MessagePayload.wf : MessagePayload → Bool
  | MessagePayload.Text s => strWf s
  | MessagePayload.Image b => bytesWf b
  | MessagePayload.File n b => strWf n && bytesWf b
  | MessagePayload.ServerInfo s => strWf s
  | MessagePayload.Login u => strWf u.name && strWf u.password
  | MessagePayload.LoginResponse _ => true

/-- A `Message` that is a representable Rust value: strings fit `usize`,
timestamp fits `i64`, blobs are bytes. -/
def Message.wf (m : Message) : Bool :=
  m.sender.all strWf && decide (-(2 ^ 63 : Int) ≤ m.timestamp) &&
    decide (m.timestamp < 2 ^ 63) && m.data.wf

/-! ## Framing (`Message::send_msg` / `Message::receive_msg`)

A TCP read side is a finite byte list; `read_exact` takes `n` bytes or
fails with an `UnexpectedEof` I/O error. -/

/-- The `std::io::ErrorKind` values relevant here. -/
inductive IoErrorKind
  | UnexpectedEof
  deriving DecidableEq, Repr

/-- `MessageError` from shared/src/errors.rs. -/
inductive MessageError
  | SerializeError
  | DeserializeError
  | SendError (e : IoErrorKind)
  | RecieveError (e : IoErrorKind)
  deriving DecidableEq, Repr

/-- `AsyncReadExt::read_exact`: fills the whole buffer or fails with
`UnexpectedEof` (both at offset zero and mid-buffer). -/
def readExact (n : Nat) (s : List Nat) :
    Except IoErrorKind (List Nat × List Nat) :=
  if n ≤ s.length then Except.ok (s.take n, s.drop n)
  else Except.error IoErrorKind.UnexpectedEof

/-- `u32::from_be_bytes` on a 4-byte buffer. -/
def fromBe4 : List Nat → Nat
  | [b0, b1, b2, b3] => ((b0 * 256 + b1) * 256 + b2) * 256 + b3
  | _ => 0

/-- `u32::to_be_bytes`. -/
def u32be (n : Nat) : List Nat :=
  [n / 256 ^ 3 % 256, n / 256 ^ 2 % 256, n / 256 % 256, n % 256]

/-- `Message::receive_msg`: read exactly 4 length bytes (big-endian u32),
then exactly that many body bytes, then decode the body.  Both short reads
are mapped to `MessageError::RecieveError`; a decode failure of a complete
body is `MessageError::DeserializeError`. -/
def Message.receive_msg (stream : List Nat) :
    Except MessageError (Message × List Nat) := do
  let (len_bytes, r) ←
    (readExact 4 stream).mapError MessageError.RecieveError
  let len := fromBe4 len_bytes
  let (buffer, r1) ← (readExact len r).mapError MessageError.RecieveError
  match Message.deserialize buffer with
  | some m => Except.ok (m, r1)
  | none => Except.error MessageError.DeserializeError

/-- `Message::send_msg` appends the 4-byte big-endian length (`len as u32`
truncates) and the serialized body to the write side's byte stream; writes
to an in-memory model stream always succeed. -/
def Message.send_msg (m : Message) (stream : List Nat) : List Nat :=
  stream ++ u32be (m.serialize.length % 2 ^ 32) ++ m.serialize

/-! ## Users and credentials (homework_9/server/src/user.rs)

The homework_10/11 servers' own `user.rs` is not among the provided
sources; the claims cite homework_9's `User::verify_user_password`, which
the later servers call identically.  The PBKDF2 primitive (an external
crate) is passed as a function parameter `pbkdf2Check secret salt password`
standing for `pbkdf2::verify(PBKDF2_HMAC_SHA512, 100_000, salt, password,
secret).is_ok()`; the claims under scrutiny do not depend on its
internals. -/

/-- `ServerError` from homework_11/server/src/server_error.rs (payloads of
variants carrying foreign errors are dropped). -/
inductive ServerError
  | Bind
  | SendMessage (e : MessageError)
  | ChannelSend
  | StoreMessage
  | StoreUser
  | GetUser
  | GetMessages
  | DeleteUser
  | PasswordDecode
  | CreateUser
  | StartApi
  | ClosedConnection
  deriving DecidableEq, Repr

/-- `User` from homework_9/server/src/user.rs; the UUID is modelled as a
number, `password` is the base64 of the derived key, `salt` the base64 of
the random salt. -/
structure User where
  id : Nat
  password : String
  username : String
  salt : String
  deriving DecidableEq, Repr

/-- Value of one character in the standard base64 alphabet. -/
def base64DecodeChar (c : Char) : Option Nat :=
  if 'A' ≤ c ∧ c ≤ 'Z' then some (c.toNat - 65)
  else if 'a' ≤ c ∧ c ≤ 'z' then some (c.toNat - 97 + 26)
  else if '0' ≤ c ∧ c ≤ '9' then some (c.toNat - 48 + 52)
  else if c = '+' then some 62
  else if c = '/' then some 63
  else none

/-- `base64::engine::general_purpose::STANDARD.decode`: input must be
groups of four alphabet characters, the final group optionally padded with
one or two `=`; canonical (zero) trailing bits are required.  Any other
input fails. -/
def base64DecodeGroups : List Char → Option (List Nat)
  | [] => some []
  | c0 :: c1 :: c2 :: c3 :: rest => do
    let v0 ← base64DecodeChar c0
    let v1 ← base64DecodeChar c1
    if c2 = '=' then
      if c3 = '=' ∧ rest = [] ∧ v1 % 16 = 0 then
        pure [v0 * 4 + v1 / 16]
      else none
    else do
      let v2 ← base64DecodeChar c2
      if c3 = '=' then
        if rest = [] ∧ v2 % 4 = 0 then
          pure [v0 * 4 + v1 / 16, v1 % 16 * 16 + v2 / 4]
        else none
      else do
        let v3 ← base64DecodeChar c3
        let tail ← base64DecodeGroups rest
        pure ((v0 * 4 + v1 / 16) :: (v1 % 16 * 16 + v2 / 4) ::
          (v2 % 4 * 64 + v3) :: tail)
  | _ => none

def base64Decode (s : String) : Option (List Nat) :=
  base64DecodeGroups s.data

/-- `str::as_bytes`: the UTF-8 bytes of a string. -/
def strBytes (s : String) : List Nat :=
  Bincode.utf8Encode s.data

/-- `User::verify_user_password`: base64-decode the stored salt, then the
stored hash; either failure is `ServerError::PasswordDecode`.  Otherwise
the PBKDF2 verification result is returned as a boolean. -/
def User.verify_user_password
    (pbkdf2Check : List Nat → List Nat → List Nat → Bool) (u : User)
    (password_to_verify : List Nat) : Except ServerError Bool :=
  match base64Decode u.salt with
  | none => Except.error ServerError.PasswordDecode
  | some decoded_salt =>
    match base64Decode u.password with
    | none => Except.error ServerError.PasswordDecode
    | some decoded_pwd =>
      Except.ok (pbkdf2Check decoded_pwd decoded_salt password_to_verify)

/-! ## Authentication (homework_11/server/src/startup.rs) -/

/-- `crate::user::UserInfo` of the homework_11 server is not among the
provided sources; from its uses in startup.rs (fields `id`, `username`,
conversion `User::into`) it is the authenticated user's id and username. -/
structure UserInfo where
  id : Nat
  username : String
  deriving DecidableEq, Repr

/-- The `impl From<User> for UserInfo` conversion used as `user.into()`. -/
def User.toUserInfo (u : User) : UserInfo :=
  { id := u.id, username := u.username }

/-- The environment of one authentication attempt: the store calls
(`ChatDb::get_user`, `ChatDb::insert_user`), the fallible
`TryFrom<AuthUser> for User` conversion (salting and hashing with a fresh
random salt), and the PBKDF2 primitive. -/
structure AuthEnv where
  get_user : String → Except ServerError (Option User)
  mk_user : AuthUser → Except ServerError User
  insert_user : User → Except ServerError Unit
  pbkdf2Check : List Nat → List Nat → List Nat → Bool

/-- `verify_or_create_user` from homework_11/server/src/startup.rs. -/
def verify_or_create_user (env : AuthEnv) (auth_user : AuthUser) :
    Except ServerError (Option UserInfo) :=
  match env.get_user auth_user.name with
  | Except.error e => Except.error e
  | Except.ok (some user) =>
    match user.verify_user_password env.pbkdf2Check
        (strBytes auth_user.password) with
    | Except.error e => Except.error e
    | Except.ok true => Except.ok (some user.toUserInfo)
    | Except.ok false => Except.ok none
  | Except.ok none =>
    match env.mk_user auth_user with
    | Except.error e => Except.error e
    | Except.ok user =>
      match env.insert_user user with
      | Except.error e => Except.error e
      | Except.ok _ => Except.ok (some user.toUserInfo)

/-- Outcome of processing one `Login` frame in the authentication loop:
either the session becomes authenticated or the loop continues; in both
cases exactly one `LoginResponse` is sent back. -/
inductive AuthStepResult
  | authenticated (user : UserInfo) (response : Message)
  | retry (response : Message)
  deriving DecidableEq, Repr

/-- One `Login` frame processed by `run_until_authenticated`
(homework_11): `Ok(Some(user))` sends `AuthPayload::new_login` and returns
the user; `Ok(None)` and `Err(_)` send `AuthPayload::new_error` and loop. -/
def authLoginStep (env : AuthEnv) (now : Int) (auth_user : AuthUser) :
    AuthStepResult :=
  match verify_or_create_user env auth_user with
  | Except.ok (some user) =>
    AuthStepResult.authenticated user
      (Message.new now (MessagePayload.LoginResponse AuthPayload.new_login))
  | Except.ok none =>
    AuthStepResult.retry
      (Message.new now (MessagePayload.LoginResponse AuthPayload.new_error))
  | Except.error _ =>
    AuthStepResult.retry
      (Message.new now (MessagePayload.LoginResponse AuthPayload.new_error))

/-- `run_until_authenticated` over the finite list of frames the client
sends: non-`Login` frames are consumed silently, stream end is
`ServerError::ClosedConnection`.  Returns the authenticated user and the
`LoginResponse` frames sent. -/
def run_until_authenticated (env : AuthEnv) (now : Int) :
    List Message → Except ServerError (UserInfo × List Message)
  | [] => Except.error ServerError.ClosedConnection
  | m :: rest =>
    match m.data with
    | MessagePayload.Login au =>
      match authLoginStep env now au with
      | AuthStepResult.authenticated u resp => Except.ok (u, [resp])
      | AuthStepResult.retry resp =>
        (run_until_authenticated env now rest).map
          (fun p => (p.1, resp :: p.2))
    | _ => run_until_authenticated env now rest

/-- Outcome of one `Login` frame in homework_10's `authenticate_user`,
which additionally can consume a frame without replying (its
`if let Ok(user_db) = db.get_user(..)` silently ignores a store error). -/
inductive AuthStepResult10
  | authenticated (user : UserInfo) (response : Message)
  | retry (response : Message)
  | ignored
  deriving DecidableEq, Repr

/-- One `Login` frame processed by `authenticate_user`
(homework_10/server/src/startup.rs): a fresh registration replies with
`AuthPayload::new_register`; a password match replies with
`AuthPayload::new_login`; `is_ok_and` collapses a verification error to a
failed login. -/
def authenticate_user_step (env : AuthEnv) (now : Int)
    (auth_user : AuthUser) : AuthStepResult10 :=
  match env.get_user auth_user.name with
  | Except.error _ => AuthStepResult10.ignored
  | Except.ok (some user) =>
    match user.verify_user_password env.pbkdf2Check
        (strBytes auth_user.password) with
    | Except.ok true =>
      AuthStepResult10.authenticated user.toUserInfo
        (Message.new now
          (MessagePayload.LoginResponse AuthPayload.new_login))
    | _ =>
      AuthStepResult10.retry
        (Message.new now
          (MessagePayload.LoginResponse AuthPayload.new_error))
  | Except.ok none =>
    match env.mk_user auth_user with
    | Except.error _ =>
      AuthStepResult10.retry
        (Message.new now
          (MessagePayload.LoginResponse AuthPayload.new_error))
    | Except.ok user =>
      match env.insert_user user with
      | Except.error _ =>
        AuthStepResult10.retry
          (Message.new now
            (MessagePayload.LoginResponse AuthPayload.new_error))
      | Except.ok _ =>
        AuthStepResult10.authenticated user.toUserInfo
          (Message.new now
            (MessagePayload.LoginResponse AuthPayload.new_register))

/-! ## Broadcaster (homework_11/server/src/startup.rs, `broadcast_messages`)

The registry maps a peer address to its TCP write half; the write half is
modelled as the list of frames successfully written plus a liveness flag
deciding whether `Message::send_msg` on it succeeds. -/

/-- An `OwnedWriteHalf` in the session registry. -/
structure WriteHalf where
  writes : List Message
  alive : Bool
  deriving DecidableEq, Repr

/-- The session registry `HashMap<SocketAddr, OwnedWriteHalf>` as an
association list with distinct keys. -/
abbrev Registry := List (Nat × WriteHalf)

/-- The send phase of one `broadcast_messages` iteration for a consumed
tuple `(ip_addr, message)`: under the `clients_iter` lock guard, attempt
the frame on every entry whose address differs from `ip_addr`; a
successful write appends the frame to that half, a failed write leaves the
half unchanged, and the entry at `ip_addr` is skipped by the filter. -/
def broadcastSends (clients : Registry) (ip_addr : Nat)
    (message : Message) : Registry :=
  clients.map (fun e =>
    if e.1 ≠ ip_addr ∧ e.2.alive = true then
      (e.1, { e.2 with writes := e.2.writes ++ [message] })
    else e)

/-- The addresses collected in `clients_to_remove`: the entries whose
write failed during the send phase. -/
def clientsToRemove (clients : Registry) (ip_addr : Nat) : List Nat :=
  (clients.filter (fun e => e.1 != ip_addr && !e.2.alive)).map
    (fun e => e.1)

/-- How one `broadcast_messages` iteration ends. -/
inductive BroadcastOutcome
  | done (clients : Registry)
  | deadlock (clients : Registry)
  deriving DecidableEq, Repr

/-- One iteration of `broadcast_messages` for a consumed tuple: the sends
happen first, under the `clients_iter` guard of `clients.lock()`.  When
`clients_to_remove` is empty the iteration completes (`done`) and the
guard is dropped.  When it is non-empty, the iteration passes each
address to `remove_client`, which re-locks the `clients` mutex while
`clients_iter` is still in scope; `tokio::sync::Mutex` is not reentrant,
so that lock acquisition never resolves (`deadlock`): the sends above have
already happened, but the dead entries are never removed and the registry
lock is never released. -/
def broadcastStep (clients : Registry) (ip_addr : Nat) (message : Message) :
    BroadcastOutcome :=
  if (clientsToRemove clients ip_addr).isEmpty then
    BroadcastOutcome.done (broadcastSends clients ip_addr message)
  else BroadcastOutcome.deadlock (broadcastSends clients ip_addr message)

/-! ## The post-authentication sequence of `handle_connection` -/

/-- The observable actions `handle_connection` performs between a
successful authentication and its receive loop, in program order. -/
inductive SrvEvent
  | writeDirect (address : Nat) (m : Message)
  | regInsert (address : Nat)
  | enqueue (address : Nat) (m : Message)
  deriving DecidableEq, Repr

/-- After `run_until_authenticated` returns: snapshot the registry size,
send the `Active users` frame on the session's own write half, insert the
write half into the registry, then enqueue the `New user connected`
broadcast tagged with this session's address. -/
def onActive (clients : Registry) (address : Nat) (username : String)
    (now : Int) : List SrvEvent :=
  [ SrvEvent.writeDirect address
      (Message.active_users_msg now clients.length),
    SrvEvent.regInsert address,
    SrvEvent.enqueue address
      (Message.new_server_msg now ("New user connected: " ++ username)) ]

/-! ## Message store read (homework_10/server/src/db.rs, `get_messages`)

The SQL query is embedded over list-valued tables:
`SELECT m.id, u.username, m.data as text, m.timestamp FROM messages m INNER
JOIN users u ON u.id = m.user_id WHERE ($1 = '') OR u.username LIKE $2
ORDER BY m.timestamp DESC LIMIT 50` with `$1` the prefix and `$2` the
pattern `format!("{}%", username)`. -/

/-- A row of the `users` table as the query sees it. -/
structure DbUser where
  id : Nat
  username : String
  deriving DecidableEq, Repr

/-- A row of the `messages` table. -/
structure DbMessage where
  id : Nat
  user_id : Nat
  data : String
  timestamp : Int
  deriving DecidableEq, Repr

/-- `MessageInfo` from homework_11/server/src/message_info.rs. -/
structure MessageInfo where
  id : Nat
  username : String
  text : String
  timestamp : Int
  deriving DecidableEq, Repr

/-- SQL `LIKE` with explicit step fuel (each step shortens the pattern or
the text, so `pattern.length + text.length + 1` steps always suffice; the
fuel only makes the recursion structural): `%` matches any run of
characters, `_` any one character, anything else itself. -/
def sqlLikeAux : Nat → List Char → List Char → Bool
  | 0, _, _ => false
  | _ + 1, [], [] => true
  | _ + 1, [], _ :: _ => false
  | fuel + 1, '%' :: p, s =>
    sqlLikeAux fuel p s ||
      (match s with
       | [] => false
       | _ :: s1 => sqlLikeAux fuel ('%' :: p) s1)
  | fuel + 1, '_' :: p, s =>
    (match s with
     | [] => false
     | _ :: s1 => sqlLikeAux fuel p s1)
  | fuel + 1, c :: p, s =>
    (match s with
     | [] => false
     | d :: s1 => c == d && sqlLikeAux fuel p s1)

/-- SQL `LIKE`: `%` matches any run of characters, `_` any one character,
anything else itself. -/
def sqlLike (pat text : List Char) : Bool :=
  sqlLikeAux (pat.length + text.length + 1) pat text

/-- The `INNER JOIN users u ON u.id = m.user_id` with the selected
columns. -/
def joinRows (users : List DbUser) (messages : List DbMessage) :
    List MessageInfo :=
  messages.flatMap (fun m =>
    (users.filter (fun u => u.id == m.user_id)).map
      (fun u => ⟨m.id, u.username, m.data, m.timestamp⟩))

/-- The `WHERE ($1 = '') OR u.username LIKE $2` condition. -/
def whereMatch (username : String) (r : MessageInfo) : Bool :=
  username == "" || sqlLike (username ++ "%").data r.username.data

/-- `ORDER BY m.timestamp DESC` as a boolean order on rows. -/
def tsDesc (a b : MessageInfo) : Bool :=
  decide (b.timestamp ≤ a.timestamp)

/-- `ChatPostgresDb::get_messages` over list-valued tables. -/
def get_messages (users : List DbUser) (messages : List DbMessage)
    (username : String) : List MessageInfo :=
  ((((joinRows users messages).filter (whereMatch username)).mergeSort
    tsDesc).take 50)

/-! ## Connection lifecycle and the `active_connections` gauge
(homework_11/server/src/startup.rs `start` / `handle_connection`,
homework_11/server/src/metrics.rs)

Each accepted connection is a task identified by `c`.  The accept loop
increments `ACTIVE_CONNECTIONS` immediately on accept and a scope guard
decrements it when the task finishes; the session registry gains its entry
only after authentication and loses it before the task finishes (every
exit path after the insert removes the entry first; a broadcast write
failure can also remove it earlier; channel send failure is unreachable
for the unbounded channel per the error design). -/

/-- Lifecycle events of connection tasks. -/
inductive ConnEvent
  | accept (c : Nat)
  | insert (c : Nat)
  | removeE (c : Nat)
  | endE (c : Nat)
  deriving DecidableEq, Repr

/-- Observable server state: accepted-and-unfinished tasks, registry keys,
and the gauge value. -/
structure ConnState where
  live : List Nat
  reg : List Nat
  gauge : Int
  deriving DecidableEq, Repr

def ConnState.initial : ConnState :=
  { live := [], reg := [], gauge := 0 }

/-- Effect of one lifecycle event: `accept` increments the gauge, `endE`
decrements it; only `insert`/`removeE` touch the registry. -/
def connStep (s : ConnState) : ConnEvent → ConnState
  | ConnEvent.accept c => { s with live := c :: s.live, gauge := s.gauge + 1 }
  | ConnEvent.insert c => { s with reg := c :: s.reg }
  | ConnEvent.removeE c => { s with reg := s.reg.erase c }
  | ConnEvent.endE c =>
    { s with live := s.live.erase c, gauge := s.gauge - 1 }

def connExec (events : List ConnEvent) : ConnState :=
  events.foldl connStep ConnState.initial

/-- Traces the server can actually produce, by the program order of
`start` and `handle_connection`: a task id is fresh at accept; a task
registers at most once, only while it is running; a task's entry is gone
before its scope guard runs. -/
inductive ConnWf : ConnState → List ConnEvent → Prop
  | nil (s : ConnState) : ConnWf s []
  | accept (s : ConnState) (c : Nat) (evs : List ConnEvent)
      (hl : c ∉ s.live) (hr : c ∉ s.reg)
      (htail : ConnWf (connStep s (ConnEvent.accept c)) evs) :
      ConnWf s (ConnEvent.accept c :: evs)
  | insert (s : ConnState) (c : Nat) (evs : List ConnEvent)
      (hl : c ∈ s.live) (hr : c ∉ s.reg)
      (htail : ConnWf (connStep s (ConnEvent.insert c)) evs) :
      ConnWf s (ConnEvent.insert c :: evs)
  | removeE (s : ConnState) (c : Nat) (evs : List ConnEvent)
      (htail : ConnWf (connStep s (ConnEvent.removeE c)) evs) :
      ConnWf s (ConnEvent.removeE c :: evs)
  | endE (s : ConnState) (c : Nat) (evs : List ConnEvent)
      (hl : c ∈ s.live) (hr : c ∉ s.reg)
      (htail : ConnWf (connStep s (ConnEvent.endE c)) evs) :
      ConnWf s (ConnEvent.endE c :: evs)

/-- The state invariant tying the gauge to the task set. -/
def ConnInv (s : ConnState) : Prop :=
  s.live.Nodup ∧ s.reg.Nodup ∧ (∀ c ∈ s.reg, c ∈ s.live) ∧
    s.gauge = s.live.length

/-! ## Codec lemmas -/

namespace Bincode

theorem readLE_leBytes (w : Nat) (n : Nat) (h : n < 256 ^ w)
    (r : List Nat) : readLE w (leBytes w n ++ r) = some (n, r) := by
  induction w generalizing n with
  | zero =>
    have : n = 0 := by simpa using h
    subst this
    simp [leBytes, readLE]
  | succ w ih =>
    have h2 : n / 256 < 256 ^ w := by
      rw [pow_succ] at h
      omega
    have : readLE (w + 1) (leBytes (w + 1) n ++ r) =
        (readLE w (leBytes w (n / 256) ++ r)).map
          (fun p => (n % 256 + 256 * p.1, p.2)) := by
      simp [leBytes, readLE]
    rw [this, ih _ h2]
    simp
    omega

theorem readChunk_append (b r : List Nat) :
    readChunk b.length (b ++ r) = some (b, r) := by
  simp [readChunk, List.take_left, List.drop_left]

theorem utf8EncodeNat_length_pos (n : Nat) :
    0 < (utf8EncodeNat n).length := by
  unfold utf8EncodeNat
  split_ifs <;> simp

theorem utf8DecodeChar_two (b0 b1 : Nat) (r : List Nat)
    (h0 : 0xC2 ≤ b0) (h0' : b0 < 0xE0) (h1 : 0x80 ≤ b1) (h1' : b1 < 0xC0) :
    utf8DecodeChar (b0 :: b1 :: r) =
      some (Char.ofNat ((b0 - 0xC0) * 64 + (b1 - 0x80)), r) := by
  simp only [utf8DecodeChar, isCont]
  rw [if_neg (by omega), if_pos (by omega), if_pos]
  refine ⟨h0, ?_⟩
  simp only [decide_eq_true_eq]
  omega

theorem utf8DecodeChar_three (b0 b1 b2 : Nat) (r : List Nat)
    (h0 : 0xE0 ≤ b0) (h0' : b0 < 0xF0) (h1 : 0x80 ≤ b1) (h1' : b1 < 0xC0)
    (h2 : 0x80 ≤ b2) (h2' : b2 < 0xC0)
    (hval : 0x800 ≤ (b0 - 0xE0) * 4096 + (b1 - 0x80) * 64 + (b2 - 0x80))
    (hsur : (b0 - 0xE0) * 4096 + (b1 - 0x80) * 64 + (b2 - 0x80) < 0xD800 ∨
      0xDFFF < (b0 - 0xE0) * 4096 + (b1 - 0x80) * 64 + (b2 - 0x80)) :
    utf8DecodeChar (b0 :: b1 :: b2 :: r) =
      some (Char.ofNat ((b0 - 0xE0) * 4096 + (b1 - 0x80) * 64 + (b2 - 0x80)),
        r) := by
  simp only [utf8DecodeChar, isCont]
  rw [if_neg (by omega), if_neg (by omega), if_pos (by omega), if_pos]
  refine ⟨?_, ?_, hval, hsur⟩ <;> (simp only [decide_eq_true_eq]; omega)

theorem utf8DecodeChar_four (b0 b1 b2 b3 : Nat) (r : List Nat)
    (h0 : 0xF0 ≤ b0) (h0' : b0 < 0xF5) (h1 : 0x80 ≤ b1) (h1' : b1 < 0xC0)
    (h2 : 0x80 ≤ b2) (h2' : b2 < 0xC0) (h3 : 0x80 ≤ b3) (h3' : b3 < 0xC0)
    (hlo : 0x10000 ≤ (b0 - 0xF0) * 0x40000 + (b1 - 0x80) * 4096 +
      (b2 - 0x80) * 64 + (b3 - 0x80))
    (hhi : (b0 - 0xF0) * 0x40000 + (b1 - 0x80) * 4096 + (b2 - 0x80) * 64 +
      (b3 - 0x80) < 0x110000) :
    utf8DecodeChar (b0 :: b1 :: b2 :: b3 :: r) =
      some (Char.ofNat ((b0 - 0xF0) * 0x40000 + (b1 - 0x80) * 4096 +
        (b2 - 0x80) * 64 + (b3 - 0x80)), r) := by
  simp only [utf8DecodeChar, isCont]
  rw [if_neg (by omega), if_neg (by omega), if_neg (by omega), if_pos]
  refine ⟨h0', ?_, ?_, ?_, hlo, hhi⟩ <;>
    (simp only [decide_eq_true_eq]; omega)

theorem utf8DecodeChar_utf8EncodeNat (n : Nat)
    (hv : n < 0xD800 ∨ (0xDFFF < n ∧ n < 0x110000)) (r : List Nat) :
    utf8DecodeChar (utf8EncodeNat n ++ r) = some (Char.ofNat n, r) := by
  by_cases h1 : n < 0x80
  · have he : utf8EncodeNat n = [n] := by simp [utf8EncodeNat, h1]
    rw [he]
    show utf8DecodeChar (n :: r) = _
    simp [utf8DecodeChar, h1]
  · by_cases h2 : n < 0x800
    · have he : utf8EncodeNat n = [0xC0 + n / 64, 0x80 + n % 64] := by
        simp [utf8EncodeNat, h1, h2]
      rw [he]
      show utf8DecodeChar ((0xC0 + n / 64) :: (0x80 + n % 64) :: r) = _
      rw [utf8DecodeChar_two _ _ r (by omega) (by omega) (by omega)
        (by omega)]
      have : (0xC0 + n / 64 - 0xC0) * 64 + (0x80 + n % 64 - 0x80) = n := by
        omega
      rw [this]
    · by_cases h3 : n < 0x10000
      · have he : utf8EncodeNat n =
            [0xE0 + n / 4096, 0x80 + n / 64 % 64, 0x80 + n % 64] := by
          simp [utf8EncodeNat, h1, h2, h3]
        rw [he]
        show utf8DecodeChar ((0xE0 + n / 4096) :: (0x80 + n / 64 % 64) ::
          (0x80 + n % 64) :: r) = _
        have harg : (0xE0 + n / 4096 - 0xE0) * 4096 +
            (0x80 + n / 64 % 64 - 0x80) * 64 + (0x80 + n % 64 - 0x80) = n := by
          omega
        rw [utf8DecodeChar_three _ _ _ r (by omega) (by omega) (by omega)
          (by omega) (by omega) (by omega) (by omega) (by omega)]
        rw [harg]
      · have h4 : n < 0x110000 := by omega
        have he : utf8EncodeNat n =
            [0xF0 + n / 0x40000, 0x80 + n / 4096 % 64, 0x80 + n / 64 % 64,
              0x80 + n % 64] := by
          simp [utf8EncodeNat, h1, h2, h3]
        rw [he]
        show utf8DecodeChar ((0xF0 + n / 0x40000) :: (0x80 + n / 4096 % 64) ::
          (0x80 + n / 64 % 64) :: (0x80 + n % 64) :: r) = _
        have harg : (0xF0 + n / 0x40000 - 0xF0) * 0x40000 +
            (0x80 + n / 4096 % 64 - 0x80) * 4096 +
            (0x80 + n / 64 % 64 - 0x80) * 64 + (0x80 + n % 64 - 0x80) = n := by
          omega
        rw [utf8DecodeChar_four _ _ _ _ r (by omega) (by omega) (by omega)
          (by omega) (by omega) (by omega) (by omega) (by omega) (by omega)
          (by omega)]
        rw [harg]

theorem utf8DecodeChar_utf8EncodeChar (c : Char) (r : List Nat) :
    utf8DecodeChar (utf8EncodeChar c ++ r) = some (c, r) := by
  have hv : c.toNat < 0xD800 ∨ (0xDFFF < c.toNat ∧ c.toNat < 0x110000) :=
    c.valid
  rw [utf8EncodeChar, utf8DecodeChar_utf8EncodeNat c.toNat hv r,
    Char.ofNat_toNat]

theorem utf8DecodeAux_utf8Encode (cs : List Char) (fuel : Nat)
    (h : (utf8Encode cs).length ≤ fuel) :
    utf8DecodeAux fuel (utf8Encode cs) = some cs := by
  induction cs generalizing fuel with
  | nil =>
    cases fuel <;> simp [utf8Encode, utf8DecodeAux]
  | cons c cs ih =>
    have henc : utf8Encode (c :: cs) = utf8EncodeChar c ++ utf8Encode cs := by
      simp [utf8Encode]
    have hpos : 0 < (utf8EncodeChar c).length := utf8EncodeNat_length_pos _
    cases hE : utf8EncodeChar c with
    | nil => rw [hE] at hpos; simp at hpos
    | cons b bs =>
      rw [henc] at h ⊢
      rw [hE] at h ⊢
      have hfuel : ∃ f, fuel = f + 1 := by
        cases fuel with
        | zero => simp at h
        | succ f => exact ⟨f, rfl⟩
      obtain ⟨f, rfl⟩ := hfuel
      have hdec : utf8DecodeChar (b :: (bs ++ utf8Encode cs)) =
          some (c, utf8Encode cs) := by
        have := utf8DecodeChar_utf8EncodeChar c (utf8Encode cs)
        rw [hE] at this
        simpa using this
      have htail : (utf8Encode cs).length ≤ f := by
        simp at h
        omega
      simp only [List.cons_append, utf8DecodeAux, List.append_eq, hdec,
        ih f htail, Option.map_some']

theorem utf8Decode_utf8Encode (cs : List Char) :
    utf8Decode (utf8Encode cs) = some cs :=
  utf8DecodeAux_utf8Encode cs (utf8Encode cs).length le_rfl

theorem pow256_8 : (256 : Nat) ^ 8 = 2 ^ 64 := by norm_num

theorem string_mk_data (s : String) : String.mk s.data = s := rfl

theorem readString_encodeString (s : String)
    (h : (Bincode.utf8Encode s.data).length < 2 ^ 64) (r : List Nat) :
    readString (encodeString s ++ r) = some (s, r) := by
  unfold readString encodeString
  rw [List.append_assoc,
    readLE_leBytes 8 _ (by rw [pow256_8]; exact h) (utf8Encode s.data ++ r)]
  simp only [Option.bind_eq_bind, Option.some_bind, readChunk_append,
    utf8Decode_utf8Encode, string_mk_data, Option.pure_def]

theorem readBytes_encodeBytes (b : List Nat) (h : b.length < 2 ^ 64)
    (r : List Nat) : readBytes (encodeBytes b ++ r) = some (b, r) := by
  unfold readBytes encodeBytes
  rw [List.append_assoc, readLE_leBytes 8 _ (by rw [pow256_8]; exact h)
    (b ++ r)]
  simp only [Option.bind_eq_bind, Option.some_bind, readChunk_append]

theorem readBool_encodeBool (b : Bool) (r : List Nat) :
    readBool (encodeBool b ++ r) = some (b, r) := by
  cases b <;> simp [encodeBool, readBool]

theorem readOption_encodeOption {α : Type} (enc : α → List Nat)
    (rd : List Nat → Option (α × List Nat)) (a? : Option α) (r : List Nat)
    (h : ∀ x, a? = some x → rd (enc x ++ r) = some (x, r)) :
    readOption rd (encodeOption enc a? ++ r) = some (a?, r) := by
  cases a? with
  | none => simp [encodeOption, readOption]
  | some x =>
    simp only [encodeOption, List.cons_append, readOption, h x rfl,
      Option.map_some']

theorem readI64_encodeI64 (t : Int) (h1 : -(2 ^ 63) ≤ t) (h2 : t < 2 ^ 63)
    (r : List Nat) : readI64 (encodeI64 t ++ r) = some (t, r) := by
  unfold readI64 encodeI64
  have hm0 : 0 ≤ t % (2 ^ 64 : Int) := Int.emod_nonneg t (by norm_num)
  have hm1 : t % (2 ^ 64 : Int) < 2 ^ 64 :=
    Int.emod_lt_of_pos t (by norm_num)
  have hcast : ((t % (2 ^ 64 : Int)).toNat : Int) = t % 2 ^ 64 :=
    Int.toNat_of_nonneg hm0
  have hlt : (t % (2 ^ 64 : Int)).toNat < 256 ^ 8 := by
    rw [pow256_8]
    omega
  rw [readLE_leBytes 8 _ hlt r]
  simp only [Option.map_some']
  have hval : (if (t % (2 ^ 64 : Int)).toNat < 2 ^ 63 then
      (((t % (2 ^ 64 : Int)).toNat : Nat) : Int)
    else (((t % (2 ^ 64 : Int)).toNat : Nat) : Int) - 2 ^ 64) = t := by
    split_ifs with hc
    · omega
    · omega
  rw [hval]

theorem readAuthMessage_encode (a : AuthMessage) (r : List Nat) :
    readAuthMessage (encodeAuthMessage a ++ r) = some (a, r) := by
  cases a <;>
    · unfold readAuthMessage encodeAuthMessage
      rw [readLE_leBytes 4 _ (by norm_num) r]
      simp

theorem readAuthError_encode (a : AuthError) (r : List Nat) :
    readAuthError (encodeAuthError a ++ r) = some (a, r) := by
  cases a
  unfold readAuthError encodeAuthError
  rw [readLE_leBytes 4 _ (by norm_num) r]
  simp

theorem readAuthPayload_encode (p : AuthPayload) (r : List Nat) :
    readAuthPayload (encodeAuthPayload p ++ r) = some (p, r) := by
  unfold readAuthPayload encodeAuthPayload
  rw [List.append_assoc, List.append_assoc,
    readBool_encodeBool p.is_ok _]
  simp only [Option.bind_eq_bind, Option.some_bind]
  rw [readOption_encodeOption encodeAuthMessage readAuthMessage p.message _
    (fun x _ => readAuthMessage_encode x _)]
  simp only [Option.some_bind]
  rw [readOption_encodeOption encodeAuthError readAuthError p.err r
    (fun x _ => readAuthError_encode x _)]
  simp only [Option.some_bind, Option.pure_def]

theorem readAuthUser_encode (u : AuthUser)
    (hn : (utf8Encode u.name.data).length < 2 ^ 64)
    (hp : (utf8Encode u.password.data).length < 2 ^ 64) (r : List Nat) :
    readAuthUser (encodeAuthUser u ++ r) = some (u, r) := by
  unfold readAuthUser encodeAuthUser
  rw [List.append_assoc, readString_encodeString u.name hn _]
  simp only [Option.bind_eq_bind, Option.some_bind]
  rw [readString_encodeString u.password hp r]
  simp only [Option.some_bind, Option.pure_def]

theorem readPayload_encodePayload (d : MessagePayload)
    (h : d.wf = true) (r : List Nat) :
    readPayload (encodePayload d ++ r) = some (d, r) := by
  cases d with
  | Text s =>
    have hs : (utf8Encode s.data).length < 2 ^ 64 := by
      simpa [MessagePayload.wf, strWf] using h
    unfold readPayload encodePayload
    rw [List.append_assoc, readLE_leBytes 4 _ (by norm_num) _]
    simp only [Option.bind_eq_bind, Option.some_bind]
    rw [readString_encodeString s hs r]
    simp
  | Image b =>
    have hb : b.length < 2 ^ 64 := by
      simp [MessagePayload.wf, bytesWf] at h
      exact h.1
    unfold readPayload encodePayload
    rw [List.append_assoc, readLE_leBytes 4 _ (by norm_num) _]
    simp only [Option.bind_eq_bind, Option.some_bind]
    rw [readBytes_encodeBytes b hb r]
    simp
  | File nm b =>
    have hn : (utf8Encode nm.data).length < 2 ^ 64 := by
      simp [MessagePayload.wf, strWf, bytesWf] at h
      exact h.1
    have hb : b.length < 2 ^ 64 := by
      simp [MessagePayload.wf, strWf, bytesWf] at h
      exact h.2.1
    unfold readPayload encodePayload
    rw [List.append_assoc, List.append_assoc,
      readLE_leBytes 4 _ (by norm_num) _]
    simp only [Option.bind_eq_bind, Option.some_bind]
    rw [readString_encodeString nm hn _]
    simp only [Option.some_bind]
    rw [readBytes_encodeBytes b hb r]
    simp
  | ServerInfo s =>
    have hs : (utf8Encode s.data).length < 2 ^ 64 := by
      simpa [MessagePayload.wf, strWf] using h
    unfold readPayload encodePayload
    rw [List.append_assoc, readLE_leBytes 4 _ (by norm_num) _]
    simp only [Option.bind_eq_bind, Option.some_bind]
    rw [readString_encodeString s hs r]
    simp
  | Login u =>
    have hn : (utf8Encode u.name.data).length < 2 ^ 64 := by
      simp [MessagePayload.wf, strWf] at h
      exact h.1
    have hp : (utf8Encode u.password.data).length < 2 ^ 64 := by
      simp [MessagePayload.wf, strWf] at h
      exact h.2
    unfold readPayload encodePayload
    rw [List.append_assoc, readLE_leBytes 4 _ (by norm_num) _]
    simp only [Option.bind_eq_bind, Option.some_bind]
    rw [readAuthUser_encode u hn hp r]
    simp
  | LoginResponse p =>
    unfold readPayload encodePayload
    rw [List.append_assoc, readLE_leBytes 4 _ (by norm_num) _]
    simp only [Option.bind_eq_bind, Option.some_bind]
    rw [readAuthPayload_encode p r]
    simp

theorem readMessage_serialize (m : Message) (h : m.wf = true)
    (r : List Nat) :
    readMessage (Message.serialize m ++ r) = some (m, r) := by
  have hsender : ∀ x, m.sender = some x →
      (utf8Encode x.data).length < 2 ^ 64 := by
    intro x hx
    have := (by simp [Message.wf] at h; exact h.1.1.1 :
      m.sender.all strWf = true)
    rw [hx] at this
    simpa [strWf] using this
  have ht1 : -(2 ^ 63 : Int) ≤ m.timestamp := by
    simp [Message.wf] at h
    exact h.1.1.2
  have ht2 : m.timestamp < 2 ^ 63 := by
    simp [Message.wf] at h
    exact h.1.2
  have hd : m.data.wf = true := by
    simp [Message.wf] at h
    exact h.2
  unfold readMessage Message.serialize
  rw [List.append_assoc, List.append_assoc,
    readOption_encodeOption encodeString readString m.sender _
      (fun x hx => readString_encodeString x (hsender x hx) _)]
  simp only [Option.bind_eq_bind, Option.some_bind]
  rw [readI64_encodeI64 m.timestamp ht1 ht2 _]
  simp only [Option.some_bind]
  rw [readPayload_encodePayload m.data hd r]
  simp only [Option.some_bind, Option.pure_def]

end Bincode

/-! ## Claim C6: codec round-trip -/

/-- C6: for every `Message` value `M` (any sender, timestamp and payload
variant) that is a representable Rust value (`Message.wf`: strings and
blobs fit `usize`, timestamp fits `i64`, blob entries are bytes),
deserializing the serialization of `M` succeeds and yields `M`. -/
theorem deserialize_serialize_roundtrip (m : Message) (h : m.wf = true) :
    Message.deserialize (Message.serialize m) = some m := by
  unfold Message.deserialize
  have hr := Bincode.readMessage_serialize m h []
  rw [List.append_nil] at hr
  rw [hr]
  rfl

/-- Witness for C6 at a concrete message exercising a non-ASCII text
payload, a sender and a negative timestamp. -/
theorem deserialize_serialize_roundtrip_witness :
    Message.wf ⟨some "alice", -5, MessagePayload.Text "héllo✓"⟩ = true ∧
    Message.deserialize (Message.serialize
        ⟨some "alice", -5, MessagePayload.Text "héllo✓"⟩) =
      some ⟨some "alice", -5, MessagePayload.Text "héllo✓"⟩ :=
  ⟨by decide, deserialize_serialize_roundtrip _ (by decide)⟩

/-! ## Claim C7: read_frame error classification -/

/-- C7 counterexample: end-of-stream exactly at the 4-byte length boundary
(`[]`) and end-of-stream in the middle of a declared 5-byte frame body
(`[0,0,0,5,0]`) both produce the very same
`MessageError::RecieveError(UnexpectedEof)` value — `receive_msg` does not
return a distinct "closed" error for the first case. -/
theorem receive_msg_eof_same_error :
    Message.receive_msg [] =
      Except.error (MessageError.RecieveError IoErrorKind.UnexpectedEof) ∧
    Message.receive_msg [0, 0, 0, 5, 0] =
      Except.error (MessageError.RecieveError IoErrorKind.UnexpectedEof) ∧
    Message.receive_msg [] = Message.receive_msg [0, 0, 0, 5, 0] := by
  exact ⟨rfl, rfl, rfl⟩

/-- C7 (amended): `receive_msg` returns the same
`RecieveError(UnexpectedEof)` for end-of-stream at the length boundary and
for end-of-stream mid-body; the only distinguished failure is a decode
failure of a completely read body, which returns `DeserializeError`. -/
theorem receive_msg_error_classes :
    (∀ s : List Nat, s.length < 4 → Message.receive_msg s =
      Except.error (MessageError.RecieveError IoErrorKind.UnexpectedEof)) ∧
    (∀ lb body : List Nat, lb.length = 4 → body.length < fromBe4 lb →
      Message.receive_msg (lb ++ body) =
        Except.error (MessageError.RecieveError IoErrorKind.UnexpectedEof)) ∧
    (∀ lb body : List Nat, lb.length = 4 → body.length = fromBe4 lb →
      Message.deserialize body = none →
      Message.receive_msg (lb ++ body) =
        Except.error MessageError.DeserializeError) := by
  refine ⟨?_, ?_, ?_⟩
  · intro s hs
    unfold Message.receive_msg readExact
    rw [if_neg (by omega)]
    rfl
  · intro lb body hlb hshort
    unfold Message.receive_msg readExact
    rw [if_pos (by simp [hlb])]
    have htake : (lb ++ body).take 4 = lb := by
      rw [← hlb]
      exact List.take_left lb body
    have hdrop : (lb ++ body).drop 4 = body := by
      rw [← hlb]
      exact List.drop_left lb body
    simp only [htake, hdrop, Bind.bind, Except.bind, Except.mapError]
    rw [if_neg (by omega)]
  · intro lb body hlb hexact hdec
    unfold Message.receive_msg readExact
    rw [if_pos (by simp [hlb])]
    have htake : (lb ++ body).take 4 = lb := by
      rw [← hlb]
      exact List.take_left lb body
    have hdrop : (lb ++ body).drop 4 = body := by
      rw [← hlb]
      exact List.drop_left lb body
    simp only [htake, hdrop, Bind.bind, Except.bind, Except.mapError]
    rw [if_pos (by omega), ← hexact, List.take_length]
    simp [hdec]

/-- Witness for C7's amended statement: a frame declaring 5 body bytes but
providing 1 fails with the receive error; an empty stream fails with the
same; a complete zero-length body is a decode failure. -/
theorem receive_msg_error_classes_witness :
    Message.receive_msg ([0, 0, 0, 5] ++ [0]) =
      Except.error (MessageError.RecieveError IoErrorKind.UnexpectedEof) ∧
    Message.receive_msg [] =
      Except.error (MessageError.RecieveError IoErrorKind.UnexpectedEof) ∧
    Message.receive_msg ([0, 0, 0, 0] ++ []) =
      Except.error MessageError.DeserializeError :=
  ⟨receive_msg_error_classes.2.1 [0, 0, 0, 5] [0] (by decide) (by decide),
    receive_msg_error_classes.1 [] (by decide),
    receive_msg_error_classes.2.2 [0, 0, 0, 0] [] (by decide) (by decide)
      (by decide)⟩

/-! ## Claim C8: password verification failure classification -/

/-- C8 counterexample: for a stored credential whose salt is not valid
base64 (`"!"`), `verify_user_password` does not return the boolean `false`
but the distinct error `ServerError::PasswordDecode` — malformed stored
credentials are distinguishable from a wrong password at this interface. -/
theorem verify_decode_failure_is_error :
    User.verify_user_password (fun _ _ _ => false)
      { id := 0, password := "TQ==", username := "u", salt := "!" } [] =
      Except.error ServerError.PasswordDecode ∧
    Except.error ServerError.PasswordDecode ≠
      (Except.ok false : Except ServerError Bool) := by
  refine ⟨rfl, ?_⟩
  intro h
  exact Except.noConfusion h

/-- C8 (amended): PBKDF2 verification failure (a wrong password) yields
`Ok(false)`, but a base64 decode failure of the stored salt or hash yields
the distinct `Err(ServerError::PasswordDecode)`; the two outcomes are
collapsed only by the callers, not at this interface. -/
theorem verify_user_password_classes
    (pbkdf2Check : List Nat → List Nat → List Nat → Bool) (u : User)
    (pwd : List Nat) :
    (∀ ds dp, base64Decode u.salt = some ds →
      base64Decode u.password = some dp →
      u.verify_user_password pbkdf2Check pwd =
        Except.ok (pbkdf2Check dp ds pwd)) ∧
    (base64Decode u.salt = none →
      u.verify_user_password pbkdf2Check pwd =
        Except.error ServerError.PasswordDecode) ∧
    (∀ ds, base64Decode u.salt = some ds → base64Decode u.password = none →
      u.verify_user_password pbkdf2Check pwd =
        Except.error ServerError.PasswordDecode) := by
  refine ⟨?_, ?_, ?_⟩
  · intro ds dp hs hp
    unfold User.verify_user_password
    rw [hs, hp]
  · intro hs
    unfold User.verify_user_password
    rw [hs]
  · intro ds hs hp
    unfold User.verify_user_password
    rw [hs, hp]

/-- Witness for C8's amended statement with both a well-formed credential
(wrong password collapses to `Ok false`) and a malformed salt. -/
theorem verify_user_password_classes_witness :
    User.verify_user_password (fun _ _ _ => false)
      { id := 0, password := "TQ==", username := "u", salt := "TWFu" } [] =
      Except.ok false ∧
    User.verify_user_password (fun _ _ _ => false)
      { id := 0, password := "TQ==", username := "u", salt := "!" } [] =
      Except.error ServerError.PasswordDecode :=
  ⟨(verify_user_password_classes (fun _ _ _ => false)
      { id := 0, password := "TQ==", username := "u", salt := "TWFu" } []).1
      [77, 97, 110] [77] (by decide) (by decide),
    (verify_user_password_classes (fun _ _ _ => false)
      { id := 0, password := "TQ==", username := "u", salt := "!" } []).2.1
      (by decide)⟩

/-! ## Claim C1: the registration response -/

/-- C1: at the failing input — a first `Login{name:"alice", password:"pw1"}`
whose username is absent from the user store (`get_user` returns `None`)
and whose registration insert succeeds — homework_11's
`run_until_authenticated` replies with `AuthPayload::new_login()`, i.e.
`is_ok = true` but `message = LoginSuccessful`, not `UserRegistered`;
homework_10's `authenticate_user` replies with `AuthPayload::new_register()`
on the same input, which is what the specification describes. -/
theorem registration_reply_is_login_successful :
    authLoginStep
      { get_user := fun _ => Except.ok none,
        mk_user := fun au => Except.ok
          { id := 7, password := "HASH", username := au.name, salt := "SALT" },
        insert_user := fun _ => Except.ok (),
        pbkdf2Check := fun _ _ _ => false } 0 ⟨"alice", "pw1"⟩ =
      AuthStepResult.authenticated ⟨7, "alice"⟩
        (Message.new 0
          (MessagePayload.LoginResponse AuthPayload.new_login)) ∧
    AuthPayload.new_login.message = some AuthMessage.LoginSuccessful ∧
    AuthPayload.new_login.message ≠ some AuthMessage.UserRegistered ∧
    authenticate_user_step
      { get_user := fun _ => Except.ok none,
        mk_user := fun au => Except.ok
          { id := 7, password := "HASH", username := au.name, salt := "SALT" },
        insert_user := fun _ => Except.ok (),
        pbkdf2Check := fun _ _ _ => false } 0 ⟨"alice", "pw1"⟩ =
      AuthStepResult10.authenticated ⟨7, "alice"⟩
        (Message.new 0
          (MessagePayload.LoginResponse AuthPayload.new_register)) ∧
    AuthPayload.new_register.message = some AuthMessage.UserRegistered := by
  exact ⟨rfl, rfl, by decide, rfl, rfl⟩

/-! ## Claim C10: store failures masked as IncorrectPassword -/

/-- C10: when `get_user` fails, or the registration path's `insert_user`
fails, homework_11's authentication step replies with the very same
`LoginResponse(AuthPayload::new_error())` — `is_ok = false`,
`err = IncorrectPassword` — that a wrong password produces, so a client
cannot distinguish a store outage from a wrong password. -/
theorem store_failure_masked_as_incorrect_password (env : AuthEnv)
    (now : Int) (au : AuthUser) (e : ServerError) :
    (env.get_user au.name = Except.error e →
      authLoginStep env now au = AuthStepResult.retry
        (Message.new now
          (MessagePayload.LoginResponse AuthPayload.new_error))) ∧
    (∀ u, env.get_user au.name = Except.ok none →
      env.mk_user au = Except.ok u → env.insert_user u = Except.error e →
      authLoginStep env now au = AuthStepResult.retry
        (Message.new now
          (MessagePayload.LoginResponse AuthPayload.new_error))) ∧
    (∀ u, env.get_user au.name = Except.ok (some u) →
      u.verify_user_password env.pbkdf2Check (strBytes au.password) =
        Except.ok false →
      authLoginStep env now au = AuthStepResult.retry
        (Message.new now
          (MessagePayload.LoginResponse AuthPayload.new_error))) ∧
    AuthPayload.new_error.is_ok = false ∧
    AuthPayload.new_error.err = some AuthError.IncorrectPassword := by
  refine ⟨?_, ?_, ?_, rfl, rfl⟩
  · intro hget
    unfold authLoginStep verify_or_create_user
    rw [hget]
  · intro u hget hmk hins
    unfold authLoginStep verify_or_create_user
    simp [hget, hmk, hins]
  · intro u hget hver
    unfold authLoginStep verify_or_create_user
    simp [hget, hver]

/-- Witness for C10 at a concrete failing store. -/
theorem store_failure_masked_witness :
    authLoginStep
      { get_user := fun _ => Except.error ServerError.GetUser,
        mk_user := fun au => Except.ok
          { id := 7, password := "HASH", username := au.name, salt := "SALT" },
        insert_user := fun _ => Except.ok (),
        pbkdf2Check := fun _ _ _ => false } 0 ⟨"alice", "pw1"⟩ =
      AuthStepResult.retry
        (Message.new 0
          (MessagePayload.LoginResponse AuthPayload.new_error)) :=
  (store_failure_masked_as_incorrect_password
    { get_user := fun _ => Except.error ServerError.GetUser,
      mk_user := fun au => Except.ok
        { id := 7, password := "HASH", username := au.name, salt := "SALT" },
      insert_user := fun _ => Except.ok (),
      pbkdf2Check := fun _ _ _ => false } 0 ⟨"alice", "pw1"⟩
    ServerError.GetUser).1 rfl

/-! ## Claim C4: sender stamping -/

/-- C4: every frame the receive loop relays carries
`sender = authenticated username`, overwriting whatever the client
supplied while leaving timestamp and payload intact; every
server-originated frame (`ServerInfo` via `new_server_msg` /
`send_active_users_msg`, and any frame built through `Message::new`, as
the `LoginResponse` frames are) carries no sender. -/
theorem relayed_frames_stamped_server_frames_anonymous
    (address : Nat) (username : String) (m : Message) (now : Int)
    (text : String) (n : Nat) (p : MessagePayload) :
    (relayStep address username m).2.sender = some username ∧
    (relayStep address username m).2.timestamp = m.timestamp ∧
    (relayStep address username m).2.data = m.data ∧
    (relayStep address username m).1 = address ∧
    (Message.new_server_msg now text).sender = none ∧
    (Message.active_users_msg now n).sender = none ∧
    (Message.new now p).sender = none := by
  exact ⟨rfl, rfl, rfl, rfl, rfl, rfl, rfl⟩

/-! ## Claim C3: the welcome frame -/

/-- C3: when a session at a fresh address completes authentication while
exactly `N` other peers populate the registry, the handler's first
post-authentication action — before the registry insert and before the
broadcast enqueue — is writing `ServerInfo("Active users: N")` to that
session's own write half. -/
theorem first_frame_after_auth_is_active_users (clients : Registry)
    (address : Nat) (username : String) (now : Int) (N : Nat)
    (hfresh : address ∉ clients.map Prod.fst) (hN : clients.length = N) :
    onActive clients address username now =
      [ SrvEvent.writeDirect address (Message.new_server_msg now
          ("Active users: " ++ toString N)),
        SrvEvent.regInsert address,
        SrvEvent.enqueue address (Message.new_server_msg now
          ("New user connected: " ++ username)) ] ∧
    (onActive clients address username now).head? =
      some (SrvEvent.writeDirect address (Message.new_server_msg now
        ("Active users: " ++ toString N))) := by
  subst hN
  exact ⟨rfl, rfl⟩

/-- Witness for C3: a fresh peer joining a registry of two others is
welcomed with `Active users: 2` before anything else. -/
theorem first_frame_after_auth_witness :
    (onActive [(1, ⟨[], true⟩), (2, ⟨[], true⟩)] 3 "alice" 0).head? =
      some (SrvEvent.writeDirect 3
        (Message.new_server_msg 0 ("Active users: " ++ toString 2))) :=
  (first_frame_after_auth_is_active_users
    [(1, ⟨[], true⟩), (2, ⟨[], true⟩)] 3 "alice" 0 2 (by decide) rfl).2

/-! ## Claim C2: fan-out excludes the sender -/

theorem mem_clientsToRemove (clients : Registry) (ip_addr a : Nat) :
    a ∈ clientsToRemove clients ip_addr ↔
      ∃ w, (a, w) ∈ clients ∧ a ≠ ip_addr ∧ w.alive = false := by
  constructor
  · intro hmem
    rcases List.mem_map.mp hmem with ⟨e, he, hfst⟩
    rcases List.mem_filter.mp he with ⟨hecl, hecond⟩
    simp only [Bool.and_eq_true, bne_iff_ne, ne_eq, Bool.not_eq_true']
      at hecond
    refine ⟨e.2, ?_, ?_, hecond.2⟩
    · rw [← hfst]
      simpa using hecl
    · rw [← hfst]
      exact hecond.1
  · rintro ⟨w, hmem, hne, hdead⟩
    refine List.mem_map.mpr ⟨(a, w), ?_, rfl⟩
    refine List.mem_filter.mpr ⟨hmem, ?_⟩
    simp [hne, hdead]

/-- C2: for every consumed tuple `(ip_addr, message)`, the send phase the
broadcaster performs under the registry lock appends `message` exactly
once to the write half of every registry entry at a different address
whose write succeeds; an entry at a different address whose write fails
receives nothing and stays as it was; the entry at `ip_addr` is never
written to, and nothing new appears at its address.  When every other
entry accepts its write, the iteration completes with exactly these
registry contents; a failed write additionally deadlocks the iteration
inside `remove_client` — after the sends above have happened. -/
theorem broadcast_skips_sender (clients : Registry) (ip_addr : Nat)
    (message : Message) :
    (∀ a w, (a, w) ∈ clients → a ≠ ip_addr → w.alive = true →
      (a, { w with writes := w.writes ++ [message] }) ∈
        broadcastSends clients ip_addr message) ∧
    (∀ a w, (a, w) ∈ clients → a ≠ ip_addr → w.alive = false →
      (a, w) ∈ broadcastSends clients ip_addr message) ∧
    (∀ w, (ip_addr, w) ∈ clients →
      (ip_addr, w) ∈ broadcastSends clients ip_addr message) ∧
    (∀ w', (ip_addr, w') ∈ broadcastSends clients ip_addr message →
      (ip_addr, w') ∈ clients) ∧
    ((∀ e ∈ clients, e.1 = ip_addr ∨ e.2.alive = true) →
      broadcastStep clients ip_addr message =
        BroadcastOutcome.done (broadcastSends clients ip_addr message)) ∧
    ((∃ e ∈ clients, e.1 ≠ ip_addr ∧ e.2.alive = false) →
      broadcastStep clients ip_addr message =
        BroadcastOutcome.deadlock
          (broadcastSends clients ip_addr message)) := by
  refine ⟨?_, ?_, ?_, ?_, ?_, ?_⟩
  · intro a w hmem hne halive
    refine List.mem_map.mpr ⟨(a, w), hmem, ?_⟩
    rw [if_pos ⟨hne, halive⟩]
  · intro a w hmem hne hdead
    refine List.mem_map.mpr ⟨(a, w), hmem, ?_⟩
    rw [if_neg]
    rintro ⟨_, halive⟩
    rw [hdead] at halive
    cases halive
  · intro w hmem
    refine List.mem_map.mpr ⟨(ip_addr, w), hmem, ?_⟩
    rw [if_neg]
    rintro ⟨hne, _⟩
    exact hne rfl
  · intro w' hmem
    rcases List.mem_map.mp hmem with ⟨e, hecl, hfe⟩
    by_cases hc : e.1 ≠ ip_addr ∧ e.2.alive = true
    · rw [if_pos hc] at hfe
      exact absurd (congrArg Prod.fst hfe) hc.1
    · rw [if_neg hc] at hfe
      rw [hfe] at hecl
      exact hecl
  · intro hall
    have hnil : clientsToRemove clients ip_addr = [] := by
      by_contra hne
      rcases List.exists_mem_of_ne_nil _ hne with ⟨a, ha⟩
      rcases (mem_clientsToRemove clients ip_addr a).mp ha with
        ⟨w, hmem, hacond, hdead⟩
      rcases hall (a, w) hmem with h | h
      · exact hacond h
      · rw [hdead] at h
        cases h
    unfold broadcastStep
    rw [hnil]
    rfl
  · rintro ⟨e, hecl, hne, hdead⟩
    have hmem : e.1 ∈ clientsToRemove clients ip_addr :=
      (mem_clientsToRemove clients ip_addr e.1).mpr
        ⟨e.2, by simpa using hecl, hne, hdead⟩
    have hnonempty : (clientsToRemove clients ip_addr).isEmpty = false := by
      cases hrem : clientsToRemove clients ip_addr with
      | nil => rw [hrem] at hmem; cases hmem
      | cons x xs => rfl
    unfold broadcastStep
    rw [hnonempty]
    rfl

/-- Witness for C2: with registry entries at addresses 1, 2 (healthy) and
3 (broken write), the broadcaster handling a text frame from address 1
delivers it to 2 exactly once, writes nothing to 3, leaves 1 untouched,
and the iteration ends in the removal deadlock (after those sends); with
only the healthy peers the iteration completes. -/
theorem broadcast_skips_sender_witness :
    (2, ⟨[Message.new 0 (MessagePayload.Text "hi")], true⟩) ∈
      broadcastSends [(1, ⟨[], true⟩), (2, ⟨[], true⟩), (3, ⟨[], false⟩)] 1
        (Message.new 0 (MessagePayload.Text "hi")) ∧
    (3, ⟨[], false⟩) ∈
      broadcastSends [(1, ⟨[], true⟩), (2, ⟨[], true⟩), (3, ⟨[], false⟩)] 1
        (Message.new 0 (MessagePayload.Text "hi")) ∧
    (1, ⟨[], true⟩) ∈
      broadcastSends [(1, ⟨[], true⟩), (2, ⟨[], true⟩), (3, ⟨[], false⟩)] 1
        (Message.new 0 (MessagePayload.Text "hi")) ∧
    broadcastStep [(1, ⟨[], true⟩), (2, ⟨[], true⟩), (3, ⟨[], false⟩)] 1
        (Message.new 0 (MessagePayload.Text "hi")) =
      BroadcastOutcome.deadlock
        (broadcastSends [(1, ⟨[], true⟩), (2, ⟨[], true⟩),
          (3, ⟨[], false⟩)] 1 (Message.new 0 (MessagePayload.Text "hi"))) ∧
    broadcastStep [(1, ⟨[], true⟩), (2, ⟨[], true⟩)] 1
        (Message.new 0 (MessagePayload.Text "hi")) =
      BroadcastOutcome.done
        (broadcastSends [(1, ⟨[], true⟩), (2, ⟨[], true⟩)] 1
          (Message.new 0 (MessagePayload.Text "hi"))) :=
  ⟨(broadcast_skips_sender [(1, ⟨[], true⟩), (2, ⟨[], true⟩),
      (3, ⟨[], false⟩)] 1 (Message.new 0 (MessagePayload.Text "hi"))).1 2
      ⟨[], true⟩ (by simp) (by decide) rfl,
    (broadcast_skips_sender [(1, ⟨[], true⟩), (2, ⟨[], true⟩),
      (3, ⟨[], false⟩)] 1 (Message.new 0 (MessagePayload.Text "hi"))).2.1 3
      ⟨[], false⟩ (by simp) (by decide) rfl,
    (broadcast_skips_sender [(1, ⟨[], true⟩), (2, ⟨[], true⟩),
      (3, ⟨[], false⟩)] 1 (Message.new 0 (MessagePayload.Text "hi"))).2.2.1
      ⟨[], true⟩ (by simp),
    (broadcast_skips_sender [(1, ⟨[], true⟩), (2, ⟨[], true⟩),
      (3, ⟨[], false⟩)] 1
      (Message.new 0 (MessagePayload.Text "hi"))).2.2.2.2.2
      ⟨(3, ⟨[], false⟩), by simp, by decide, rfl⟩,
    (broadcast_skips_sender [(1, ⟨[], true⟩), (2, ⟨[], true⟩)] 1
      (Message.new 0 (MessagePayload.Text "hi"))).2.2.2.2.1
      (by decide)⟩

/-! ## Claim C5: get_messages -/

theorem tsDesc_trans : ∀ a b c : MessageInfo, tsDesc a b = true →
    tsDesc b c = true → tsDesc a c = true := by
  intro a b c hab hbc
  simp only [tsDesc, decide_eq_true_eq] at *
  omega

theorem tsDesc_total : ∀ a b : MessageInfo,
    (tsDesc a b || tsDesc b a) = true := by
  intro a b
  simp only [tsDesc, Bool.or_eq_true, decide_eq_true_eq]
  omega

/-- C5: `get_messages` returns at most 50 rows; they are ordered by
timestamp descending; they are an initial segment (the most recent rows)
of a descending ordering of exactly the rows passing the filter; with a
non-empty prefix every returned row's author matches the SQL pattern
`<prefix>%`; with the empty prefix the filter keeps every joined row; and
whenever at most 50 rows pass the filter, the result is exactly those rows
(up to the descending reordering). -/
theorem get_messages_spec (users : List DbUser) (messages : List DbMessage)
    (username : String) :
    (get_messages users messages username).length ≤ 50 ∧
    List.Pairwise (fun a b => b.timestamp ≤ a.timestamp)
      (get_messages users messages username) ∧
    (∃ l, l.Perm ((joinRows users messages).filter (whereMatch username)) ∧
      List.Pairwise (fun a b => b.timestamp ≤ a.timestamp) l ∧
      get_messages users messages username = l.take 50) ∧
    (∀ r ∈ get_messages users messages username, username ≠ "" →
      sqlLike (username ++ "%").data r.username.data = true) ∧
    (username = "" →
      (joinRows users messages).filter (whereMatch username) =
        joinRows users messages) ∧
    (((joinRows users messages).filter (whereMatch username)).length ≤ 50 →
      (get_messages users messages username).Perm
        ((joinRows users messages).filter (whereMatch username))) := by
  have hsortedB := List.sorted_mergeSort tsDesc_trans
    tsDesc_total ((joinRows users messages).filter (whereMatch username))
  have hsorted : List.Pairwise (fun a b => b.timestamp ≤ a.timestamp)
      (((joinRows users messages).filter (whereMatch username)).mergeSort
        tsDesc) := by
    refine hsortedB.imp ?_
    intro a b h
    simpa [tsDesc] using h
  have hperm := List.mergeSort_perm
    ((joinRows users messages).filter (whereMatch username)) tsDesc
  refine ⟨?_, ?_, ?_, ?_, ?_, ?_⟩
  · show ((((joinRows users messages).filter
      (whereMatch username)).mergeSort tsDesc).take 50).length ≤ 50
    rw [List.length_take]
    exact inf_le_left
  · exact List.Pairwise.sublist (List.take_sublist 50 _) hsorted
  · exact ⟨_, hperm, hsorted, rfl⟩
  · intro r hr hne
    have hr2 : r ∈ ((joinRows users messages).filter
        (whereMatch username)).mergeSort tsDesc :=
      (List.take_sublist 50 _).subset hr
    have hr3 : r ∈ (joinRows users messages).filter (whereMatch username) :=
      hperm.mem_iff.mp hr2
    have hcond := (List.mem_filter.mp hr3).2
    simp only [whereMatch, Bool.or_eq_true, beq_iff_eq] at hcond
    rcases hcond with h | h
    · exact absurd h hne
    · exact h
  · intro hempty
    refine List.filter_eq_self.mpr ?_
    intro r _
    simp [whereMatch, hempty]
  · intro hlen
    have hlen2 : (((joinRows users messages).filter
        (whereMatch username)).mergeSort tsDesc).length ≤ 50 := by
      rw [hperm.length_eq]
      exact hlen
    show ((((joinRows users messages).filter
      (whereMatch username)).mergeSort tsDesc).take 50).Perm _
    rw [List.take_of_length_le hlen2]
    exact hperm

/-- Witness for C5 on concrete tables: two users, four messages (one with a
dangling author), both the filtered and the unfiltered query. -/
theorem get_messages_spec_witness :
    (get_messages [⟨1, "alice"⟩, ⟨2, "bob"⟩]
      [⟨10, 1, "hi", 5⟩, ⟨11, 2, "yo", 7⟩, ⟨12, 1, "x", 6⟩,
        ⟨13, 3, "orphan", 9⟩] "al").Perm
      ((joinRows [⟨1, "alice"⟩, ⟨2, "bob"⟩]
        [⟨10, 1, "hi", 5⟩, ⟨11, 2, "yo", 7⟩, ⟨12, 1, "x", 6⟩,
          ⟨13, 3, "orphan", 9⟩]).filter (whereMatch "al")) ∧
    (∀ r ∈ get_messages [⟨1, "alice"⟩, ⟨2, "bob"⟩]
        [⟨10, 1, "hi", 5⟩, ⟨11, 2, "yo", 7⟩, ⟨12, 1, "x", 6⟩,
          ⟨13, 3, "orphan", 9⟩] "al", ("al" : String) ≠ "" →
      sqlLike ("al" ++ "%").data r.username.data = true) :=
  ⟨(get_messages_spec [⟨1, "alice"⟩, ⟨2, "bob"⟩]
      [⟨10, 1, "hi", 5⟩, ⟨11, 2, "yo", 7⟩, ⟨12, 1, "x", 6⟩,
        ⟨13, 3, "orphan", 9⟩] "al").2.2.2.2.2 (by decide),
    (get_messages_spec [⟨1, "alice"⟩, ⟨2, "bob"⟩]
      [⟨10, 1, "hi", 5⟩, ⟨11, 2, "yo", 7⟩, ⟨12, 1, "x", 6⟩,
        ⟨13, 3, "orphan", 9⟩] "al").2.2.2.1⟩

/-! ## Claim C9: the active_connections gauge -/

theorem connInv_initial : ConnInv ConnState.initial := by
  refine ⟨List.nodup_nil, List.nodup_nil, ?_, rfl⟩
  intro c hc
  cases hc

theorem connInv_preserved {s : ConnState} {evs : List ConnEvent}
    (hw : ConnWf s evs) (hinv : ConnInv s) :
    ConnInv (evs.foldl connStep s) := by
  induction hw with
  | nil s => exact hinv
  | accept s c evs hl hr htail ih =>
    rw [List.foldl_cons]
    refine ih ?_
    obtain ⟨hnd, hrnd, hsub, hg⟩ := hinv
    refine ⟨List.nodup_cons.mpr ⟨hl, hnd⟩, hrnd, ?_, ?_⟩
    · intro x hx
      exact List.mem_cons_of_mem c (hsub x hx)
    · show s.gauge + 1 = ((c :: s.live).length : Int)
      rw [hg]
      simp only [List.length_cons]
      push_cast
      omega
  | insert s c evs hl hr htail ih =>
    rw [List.foldl_cons]
    refine ih ?_
    obtain ⟨hnd, hrnd, hsub, hg⟩ := hinv
    refine ⟨hnd, List.nodup_cons.mpr ⟨hr, hrnd⟩, ?_, hg⟩
    intro x hx
    rcases List.mem_cons.mp hx with hx | hx
    · rw [hx]; exact hl
    · exact hsub x hx
  | removeE s c evs htail ih =>
    rw [List.foldl_cons]
    refine ih ?_
    obtain ⟨hnd, hrnd, hsub, hg⟩ := hinv
    refine ⟨hnd, hrnd.erase c, ?_, hg⟩
    intro x hx
    exact hsub x (List.mem_of_mem_erase hx)
  | endE s c evs hl hr htail ih =>
    rw [List.foldl_cons]
    refine ih ?_
    obtain ⟨hnd, hrnd, hsub, hg⟩ := hinv
    refine ⟨hnd.erase c, hrnd, ?_, ?_⟩
    · intro x hx
      refine (List.mem_erase_of_ne ?_).mpr (hsub x hx)
      intro hxc
      rw [hxc] at hx
      exact hr hx
    · show s.gauge - 1 = ((s.live.erase c).length : Int)
      rw [hg, List.length_erase_of_mem hl]
      have hpos : 0 < s.live.length := List.length_pos_of_mem hl
      push_cast
      omega

/-- C9 counterexample: the trace of a single accepted connection that has
not yet authenticated is producible by the server (`ConnWf`), and at its
end — outside any atomic insert/remove region — the gauge reads 1 while
the session registry is empty: the connection contributes to the gauge
before it is inserted into the registry. -/
theorem gauge_differs_from_registry_size :
    ConnWf ConnState.initial [ConnEvent.accept 0] ∧
    (connExec [ConnEvent.accept 0]).gauge = 1 ∧
    (connExec [ConnEvent.accept 0]).reg.length = 0 := by
  refine ⟨?_, rfl, rfl⟩
  refine ConnWf.accept _ 0 [] ?_ ?_ (ConnWf.nil _)
  · intro h; cases h
  · intro h; cases h

/-- C9 (amended): along every producible trace, `active_connections`
equals the number of accepted-but-unfinished connection tasks, and the
registry size never exceeds the gauge; equality with the registry size
fails in general because the gauge is incremented at accept, before the
registry insert, and unauthenticated connections never enter the
registry. -/
theorem gauge_counts_live_connections (evs : List ConnEvent)
    (hw : ConnWf ConnState.initial evs) :
    (connExec evs).gauge = ((connExec evs).live.length : Int) ∧
    ((connExec evs).reg.length : Int) ≤ (connExec evs).gauge := by
  obtain ⟨hnd, hrnd, hsub, hg⟩ := connInv_preserved hw connInv_initial
  unfold connExec
  refine ⟨hg, ?_⟩
  rw [hg]
  exact_mod_cast (List.Nodup.subperm hrnd
    (fun a ha => hsub a ha)).length_le

/-- Witness for C9's amended statement on the one-accept trace. -/
theorem gauge_counts_live_connections_witness :
    (connExec [ConnEvent.accept 0]).gauge =
      ((connExec [ConnEvent.accept 0]).live.length : Int) ∧
    ((connExec [ConnEvent.accept 0]).reg.length : Int) ≤
      (connExec [ConnEvent.accept 0]).gauge :=
  gauge_counts_live_connections [ConnEvent.accept 0]
    (ConnWf.accept _ 0 [] (fun h => by cases h) (fun h => by cases h)
      (ConnWf.nil _))
